import Mathlib

/-!
Verification of the OTBN simulator control-state model
(`hw/ip/otbn/dv/otbnsim/sim/state.py`).

The file embeds the control logic of `OTBNState` — the start/stop FSM, the
staged commit/abort discipline, the stop/start protocols, PC validity and the
IMEM-invalidation countdown — as executable Lean definitions, and proves the
frozen specification claims about them.

The storage resources (`GPRs`, `Dmem`, `LoopStack`, `OTBNExtRegs`, `WSRFile`,
`CSRFile`, `EdnClient`) and the constants module are collaborators whose code
is out of scope; they are modelled from the specification's description of the
staged-storage contract and the entropy-client contract.  Python `assert`
statements are modelled by returning `Option` (`none` = assertion failure).
-/

/-- Modelled from the spec: the staged-storage contract (stage a pending
write, `commit` to make it permanent, `abort` to discard it) implemented by
the register files, memory, flags and similar resources whose source is not
in scope.  `committed` is the externally observable value; `staged`, when
present, is the pending write recorded this cycle. -/
structure StagedCell (α : Type) where
  committed : α
  staged : Option α
deriving DecidableEq

/-- Read-before-commit view: a staged write is visible to subsequent reads. -/
def StagedCell.read (c : StagedCell α) : α :=
  c.staged.getD c.committed

/-- Stage a pending write. -/
def StagedCell.record (c : StagedCell α) (v : α) : StagedCell α :=
  { c with staged := some v }

/-- Make the staged write (if any) permanent and clear staging. -/
def StagedCell.commit (c : StagedCell α) : StagedCell α :=
  { committed := c.staged.getD c.committed, staged := none }

/-- Discard the staged write, reverting to the last committed value. -/
def StagedCell.abort (c : StagedCell α) : StagedCell α :=
  { c with staged := none }

/-- State of the internal start/stop FSM (`FsmState` in the source). -/
inductive FsmState where
  | PRE_WIPE
  | WIPING
  | IDLE
  | PRE_EXEC
  | EXEC
  | MEM_SEC_WIPE
  | LOCKED
deriving DecidableEq

/-- `InitSecWipeState` in the source: phase of the one-time startup wipe. -/
inductive InitSecWipeState where
  | NOT_DONE
  | IN_PROGRESS
  | DONE
deriving DecidableEq

/-- Modelled from the spec: the tri-state lifecycle-escalation input
(`LcTx` in the constants module, not in scope): `Off`/`On`/other. -/
inductive LcTx where
  | ON
  | OFF
  | OTHER
deriving DecidableEq

/-- Modelled from the spec: the externally visible status enumeration
(busy / idle / locked); concrete codes are a serialization detail. -/
def Status.IDLE : Nat := 0

/-- Modelled from the spec: status code published while executing. -/
def Status.BUSY_EXECUTE : Nat := 1

/-- Modelled from the spec: status code published once locked. -/
def Status.LOCKED : Nat := 255

/-- Modelled from the spec: the bad-instruction-address error bit
(`ErrBits.BAD_INSN_ADDR` in the constants module, not in scope). -/
def ErrBits.BAD_INSN_ADDR : Nat := 2

/-- The number of cycles spent per round of a secure wipe (`_WIPE_CYCLES`). -/
def WIPE_CYCLES : Int := 68

/-- Modelled from the spec: instruction-memory size in bytes, read by the
source from the shared memory layout (not in scope). -/
def IMEM_SIZE_BYTES : Nat := 4096

/-- Modelled from the spec: the general register file with its staged-storage
contract, a call stack (emptied on `start`), and the error bits its per-cycle
checks have accumulated (read back by `post_insn`). -/
structure GPRs where
  regs : StagedCell Nat
  call_stack : List Nat
  acc_err_bits : Nat
deriving DecidableEq

/-- Commit the register file's staged writes. -/
def GPRs.commit (g : GPRs) : GPRs :=
  { g with regs := g.regs.commit }

/-- Discard the register file's staged writes. -/
def GPRs.abort (g : GPRs) : GPRs :=
  { g with regs := g.regs.abort }

/-- Error bits accumulated by the register file this cycle. -/
def GPRs.err_bits (g : GPRs) : Nat :=
  g.acc_err_bits

/-- Modelled from the spec: per-instruction call-stack finalisation; it does
not touch the staged register contents. -/
def GPRs.post_insn (g : GPRs) : GPRs :=
  g

/-- Empty the call stack (part of the start protocol). -/
def GPRs.empty_call_stack (g : GPRs) : GPRs :=
  { g with call_stack := [] }

/-- Modelled from the spec: a hardware-loop frame (start PC of the body,
remaining iteration count, body size in bytes). -/
structure LoopFrame where
  start_addr : Nat
  iterations : Nat
  bodysize : Nat
deriving DecidableEq

/-- Modelled from the spec: the bounded stack of hardware-loop frames with
staged push/pop mirroring the storage contract, plus the error bits its
validity checks have accumulated. -/
structure LoopStack where
  stack : List LoopFrame
  staged_stack : Option (List LoopFrame)
  acc_err_bits : Nat
deriving DecidableEq

/-- The loop stack as reset on `start()`. -/
def LoopStack.init : LoopStack :=
  { stack := [], staged_stack := none, acc_err_bits := 0 }

/-- Read-before-commit view of the loop stack. -/
def LoopStack.current (ls : LoopStack) : List LoopFrame :=
  ls.staged_stack.getD ls.stack

/-- Commit the staged loop-stack update. -/
def LoopStack.commit (ls : LoopStack) : LoopStack :=
  { ls with stack := ls.current, staged_stack := none }

/-- Discard the staged loop-stack update. -/
def LoopStack.abort (ls : LoopStack) : LoopStack :=
  { ls with staged_stack := none }

/-- Error bits accumulated by the loop stack this cycle. -/
def LoopStack.err_bits (ls : LoopStack) : Nat :=
  ls.acc_err_bits

/-- Modelled from the spec: per-instruction loop-stack step.  When the current
PC reaches the end of the innermost loop body, either decrement the iteration
count and return the PC to jump back to (consulting the caller-supplied
PC-to-target override map for warped loop bodies), or pop the finished frame.
Returns the back-branch PC (if any) together with the updated stack. -/
def LoopStack.step (ls : LoopStack) (pc : Nat) (loop_warps : List (Nat × Nat)) :
    Option Nat × LoopStack :=
  match ls.current with
  | [] => (none, ls)
  | frame :: rest =>
      if pc = frame.start_addr + frame.bodysize - 4 then
        if frame.iterations ≤ 1 then
          (none, { ls with staged_stack := some rest })
        else
          let target := ((loop_warps.lookup pc).getD frame.start_addr)
          let frame1 := { frame with iterations := frame.iterations - 1 }
          (some target, { ls with staged_stack := some (frame1 :: rest) })
      else
        (none, ls)

/-- Modelled from the spec: the external-register file.  Each register obeys
the staged-storage contract; the RND entropy feed's request bookkeeping
(poison / forget) is tracked alongside. -/
structure OTBNExtRegs where
  status : StagedCell Nat
  intr_state : StagedCell Nat
  err_bits : StagedCell Nat
  stop_pc : StagedCell Nat
  wipe_start : StagedCell Nat
  insn_cnt : StagedCell Nat
  rnd_req_pending : Bool
  rnd_poisoned : Bool
deriving DecidableEq

/-- Stage a write to the STATUS register. -/
def OTBNExtRegs.write_status (e : OTBNExtRegs) (v : Nat) : OTBNExtRegs :=
  { e with status := e.status.record v }

/-- OR bits into the INTR_STATE register (staged). -/
def OTBNExtRegs.set_bits_intr_state (e : OTBNExtRegs) (bits : Nat) : OTBNExtRegs :=
  { e with intr_state := e.intr_state.record (e.intr_state.read ||| bits) }

/-- Stage a write to the ERR_BITS register. -/
def OTBNExtRegs.write_err_bits (e : OTBNExtRegs) (v : Nat) : OTBNExtRegs :=
  { e with err_bits := e.err_bits.record v }

/-- Stage a write to the STOP_PC register. -/
def OTBNExtRegs.write_stop_pc (e : OTBNExtRegs) (v : Nat) : OTBNExtRegs :=
  { e with stop_pc := e.stop_pc.record v }

/-- Stage a write to the WIPE_START register. -/
def OTBNExtRegs.write_wipe_start (e : OTBNExtRegs) (v : Nat) : OTBNExtRegs :=
  { e with wipe_start := e.wipe_start.record v }

/-- Commit just the WIPE_START register (used by `stop` to make the pulse
visible within the same call). -/
def OTBNExtRegs.commit_wipe_start (e : OTBNExtRegs) : OTBNExtRegs :=
  { e with wipe_start := e.wipe_start.commit }

/-- Modelled from the spec: increment the instruction counter (staged,
32-bit). -/
def OTBNExtRegs.increment_insn_cnt (e : OTBNExtRegs) : OTBNExtRegs :=
  { e with insn_cnt := e.insn_cnt.record ((e.insn_cnt.read + 1) % 2 ^ 32) }

/-- Commit all external registers. -/
def OTBNExtRegs.commit (e : OTBNExtRegs) : OTBNExtRegs :=
  { e with
    status := e.status.commit
    intr_state := e.intr_state.commit
    err_bits := e.err_bits.commit
    stop_pc := e.stop_pc.commit
    wipe_start := e.wipe_start.commit
    insn_cnt := e.insn_cnt.commit }

/-- Discard all staged external-register writes. -/
def OTBNExtRegs.abort (e : OTBNExtRegs) : OTBNExtRegs :=
  { e with
    status := e.status.abort
    intr_state := e.intr_state.abort
    err_bits := e.err_bits.abort
    stop_pc := e.stop_pc.abort
    wipe_start := e.wipe_start.abort
    insn_cnt := e.insn_cnt.abort }

/-- Modelled from the spec: per-cycle external-register timing advance (RND
CDC timing only); register contents are untouched. -/
def OTBNExtRegs.step (e : OTBNExtRegs) : OTBNExtRegs :=
  e

/-- Poison the RND requester, discarding the rest of any in-flight request. -/
def OTBNExtRegs.rnd_poison (e : OTBNExtRegs) : OTBNExtRegs :=
  { e with rnd_poisoned := true }

/-- Clear any pending request in the RND EDN client. -/
def OTBNExtRegs.rnd_forget (e : OTBNExtRegs) : OTBNExtRegs :=
  { e with rnd_req_pending := false }

/-- Modelled from the spec: the URND seed register of the wide-special
register file; `set_seed` stages the four 64-bit seed quarter-words, and the
register is committed even in otherwise-idle states. -/
structure URndReg where
  seed : List Nat
  staged_seed : Option (List Nat)
deriving DecidableEq

/-- Stage a new URND seed. -/
def URndReg.set_seed (u : URndReg) (w64s : List Nat) : URndReg :=
  { u with staged_seed := some w64s }

/-- Commit the staged URND seed. -/
def URndReg.commit (u : URndReg) : URndReg :=
  { seed := u.staged_seed.getD u.seed, staged_seed := none }

/-- Discard the staged URND seed. -/
def URndReg.abort (u : URndReg) : URndReg :=
  { u with staged_seed := none }

/-- Modelled from the spec: the wide-special register file.  `URND` is pulled
out because it is committed separately; the remaining registers follow the
staged-storage contract, with a component that persists across runs. -/
structure WSRFile where
  URND : URndReg
  other : StagedCell Nat
  persistent : Nat
deriving DecidableEq

/-- Commit all wide-special registers (including URND). -/
def WSRFile.commit (w : WSRFile) : WSRFile :=
  { w with URND := w.URND.commit, other := w.other.commit }

/-- Discard all staged wide-special register writes. -/
def WSRFile.abort (w : WSRFile) : WSRFile :=
  { w with URND := w.URND.abort, other := w.other.abort }

/-- Modelled from the spec: reset on `start()`, with special treatment
because some wide-special registers persist across operations. -/
def WSRFile.on_start (w : WSRFile) : WSRFile :=
  { w with other := { committed := 0, staged := none } }

/-- Modelled from the spec: the CSR file; the flag groups follow the
staged-storage contract. -/
structure CSRFile where
  flags : StagedCell Nat
deriving DecidableEq

/-- A freshly constructed CSR file (the start protocol's reset). -/
def CSRFile.init : CSRFile :=
  { flags := { committed := 0, staged := none } }

/-- Modelled from the spec: the URND entropy client — a single in-flight
request to the external random-bit source with a CDC delay.  `cdc_word` and
`cdc_retry` are what `cdc_complete` reports (value-or-none, retry-needed),
with two auxiliary error flags. -/
structure EdnClient where
  requested : Bool
  cdc_word : Option Nat
  cdc_retry : Bool
  fips_err : Bool
  rep_err : Bool
deriving DecidableEq

/-- Issue a request (idempotent while already pending). -/
def EdnClient.request (c : EdnClient) : EdnClient :=
  { c with requested := true }

/-- Per-cycle timer advance; no observable register change. -/
def EdnClient.step (c : EdnClient) : EdnClient :=
  c

/-- Abandon the in-flight request (entropy-source reset). -/
def EdnClient.edn_reset (_c : EdnClient) : EdnClient :=
  { requested := false, cdc_word := none, cdc_retry := false,
    fips_err := false, rep_err := false }

/-- CDC completion: report (value-or-none, retry-needed, aux flags) and
clear the completed request. -/
def EdnClient.cdc_complete (c : EdnClient) :
    (Option Nat × Bool × Bool × Bool) × EdnClient :=
  ((c.cdc_word, c.cdc_retry, c.fips_err, c.rep_err),
   { c with requested := false, cdc_word := none, cdc_retry := false })

/-- The control state of the OTBN model: all fields of `OTBNState.__init__`
that the control logic reads or writes. -/
structure OTBNState where
  gprs : GPRs
  wdrs : StagedCell Nat
  ext_regs : OTBNExtRegs
  wsrs : WSRFile
  csrs : CSRFile
  pc : Nat
  pc_next_override : Option Nat
  imem_size : Nat
  dmem : StagedCell Nat
  fsm_state : FsmState
  next_fsm_state : FsmState
  init_sec_wipe_state : InitSecWipeState
  wipe_rounds_to_do : Nat
  wipe_rounds_done : Nat
  loop_stack : LoopStack
  err_bits : Nat
  pending_halt : Bool
  urnd_client : EdnClient
  time_to_imem_invalidation : Option Int
  invalidated_imem : Bool
  wipe_cycles : Int
  lock_after_wipe : Bool
  injected_err_bits : Nat
  lock_immediately : Bool
  time_to_insn_cnt_zero : Option Nat
  software_errs_fatal : Bool
  cycles_in_this_state : Nat
  rma_req : LcTx
  has_state_to_wipe : Bool
  delayed_lock : Bool
  edn_seen_running : Bool
deriving DecidableEq

/-- `OTBNState.get_next_pc`: the next-PC override if set, else `pc + 4`. -/
def OTBNState.get_next_pc (s : OTBNState) : Nat :=
  s.pc_next_override.getD (s.pc + 4)

/-- `OTBNState.is_pc_valid`: word-aligned and inside instruction memory.
(The source also asserts `0 <= pc`; the PC is a natural number here.) -/
def OTBNState.is_pc_valid (s : OTBNState) (pc : Nat) : Bool :=
  if pc &&& 3 ≠ 0 then false
  else if s.imem_size ≤ pc then false
  else true

/-- `OTBNState.set_next_pc`: overwrite the next program counter (e.g. as the
result of a jump).  The source asserts validity; `none` models the assertion
failing. -/
def OTBNState.set_next_pc (s : OTBNState) (next_pc : Nat) : Option OTBNState :=
  if s.is_pc_valid next_pc then some { s with pc_next_override := some next_pc }
  else none

/-- `OTBNState.urnd_completed`: complete the URND CDC request.  The source
asserts the client is not poisoned (a value is present and no retry is
needed); `none` models that assertion failing.  On success the 256-bit word
is split into four 64-bit quarter-words (least-significant first) staged as
the URND seed, and the entropy source is marked as observed running. -/
def OTBNState.urnd_completed (s : OTBNState) : Option OTBNState :=
  match s.urnd_client.cdc_complete with
  | ((some w256, false, _, _), c) =>
      let w64s := [w256 &&& (2 ^ 64 - 1),
                   (w256 >>> 64) &&& (2 ^ 64 - 1),
                   (w256 >>> 128) &&& (2 ^ 64 - 1),
                   (w256 >>> 192) &&& (2 ^ 64 - 1)]
      some { s with
             urnd_client := c
             edn_seen_running := true
             wsrs := { s.wsrs with URND := s.wsrs.URND.set_seed w64s } }
  | _ => none

/-- `OTBNState.stop_at_end_of_cycle`: accumulate error bits and request a
halt at the end of the cycle. -/
def OTBNState.stop_at_end_of_cycle (s : OTBNState) (bits : Nat) : OTBNState :=
  { s with err_bits := s.err_bits ||| bits, pending_halt := true }

/-- `OTBNState.take_injected_err_bits`: fold externally injected error bits
into the accumulator, stopping at the end of the cycle. -/
def OTBNState.take_injected_err_bits (s : OTBNState) : OTBNState :=
  if s.injected_err_bits ≠ 0 then
    { s.stop_at_end_of_cycle s.injected_err_bits with injected_err_bits := 0 }
  else s

/-- `OTBNState.step`: per-cycle advance — optionally handle injected errors,
then advance external-register timing and the URND client. -/
def OTBNState.step (s : OTBNState) (handle_injected_error : Bool) : OTBNState :=
  let s1 := if handle_injected_error then s.take_injected_err_bits else s
  { s1 with ext_regs := s1.ext_regs.step, urnd_client := s1.urnd_client.step }

/-- `OTBNState.set_fsm_state`: set the next FSM state, arming the wipe-cycle
countdown when the next state is `WIPING`. -/
def OTBNState.set_fsm_state (s : OTBNState) (new_state : FsmState) : OTBNState :=
  let s1 := if new_state = FsmState.WIPING then { s with wipe_cycles := WIPE_CYCLES }
            else s
  { s1 with next_fsm_state := new_state }

/-- The IMEM-invalidation countdown step at the top of `OTBNState.commit`:
if a countdown is armed, decrement it; on reaching zero set
`invalidated_imem` and clear the countdown. -/
def OTBNState.imem_invalidation_tick (s : OTBNState) : OTBNState :=
  match s.time_to_imem_invalidation with
  | none => s
  | some t =>
      if t - 1 = 0 then
        { s with invalidated_imem := true, time_to_imem_invalidation := none }
      else
        { s with time_to_imem_invalidation := some (t - 1) }

/-- The FSM-latch step of `OTBNState.commit`: the next-state field becomes
the current state, and the cycles-in-this-state counter is incremented when
the state did not change and reset when it did. -/
def OTBNState.latch_fsm (s : OTBNState) : OTBNState :=
  let s2 := { s with fsm_state := s.next_fsm_state }
  if s2.fsm_state = s.fsm_state then
    { s2 with cycles_in_this_state := s2.cycles_in_this_state + 1 }
  else
    { s2 with cycles_in_this_state := 0 }

/-- The architectural-state phase of `OTBNState.commit`, run only when the
previous state was `EXEC` or `WIPING`: commit general registers, memory,
loop stack, wide-special registers, flags and wide registers in that order,
then (unless stalled) advance the committed PC to the next-PC value. -/
def OTBNState.commit_arch (s : OTBNState) (sim_stalled : Bool) : OTBNState :=
  let s6 := { s with gprs := s.gprs.commit }
  let s7 := { s6 with dmem := s6.dmem.commit }
  let s8 := { s7 with loop_stack := s7.loop_stack.commit }
  let s9 := { s8 with wsrs := s8.wsrs.commit }
  let s10 := { s9 with csrs := { s9.csrs with flags := s9.csrs.flags.commit } }
  let s11 := { s10 with wdrs := s10.wdrs.commit }
  if sim_stalled then s11
  else { s11 with pc := s11.get_next_pc, pc_next_override := none }

/-- `OTBNState.commit`: advance the IMEM-invalidation countdown, latch the
next FSM state, track cycles-in-state, always commit external registers and
the URND register, and — only if the previous state was `EXEC` or `WIPING` —
commit the architectural resources and (unless stalled) advance the PC. -/
def OTBNState.commit (s : OTBNState) (sim_stalled : Bool) : OTBNState :=
  let s1 := s.imem_invalidation_tick
  let old_state := s1.fsm_state
  let s3 := s1.latch_fsm
  let s4 := { s3 with ext_regs := s3.ext_regs.commit }
  let s5 := { s4 with wsrs := { s4.wsrs with URND := s4.wsrs.URND.commit } }
  if old_state = FsmState.EXEC ∨ old_state = FsmState.WIPING then
    s5.commit_arch sim_stalled
  else s5

/-- Which resource-commit actions `OTBNState.commit` performs, in the order
the source performs them (used to state the ordering part of the per-cycle
commit contract). -/
inductive CommitAction where
  | extRegsC
  | urndC
  | gprsC
  | dmemC
  | loopStackC
  | wsrsC
  | flagsC
  | wdrsC
  | pcAdvance
deriving DecidableEq

/-- The ordered sequence of resource-commit actions performed by
`OTBNState.commit`, transcribed from the source's statement order: external
registers and URND always; the architectural resources (then the PC advance,
unless stalled) only when the previous state was `EXEC` or `WIPING`. -/
def OTBNState.commitActions (s : OTBNState) (sim_stalled : Bool) :
    List CommitAction :=
  let always := [CommitAction.extRegsC, CommitAction.urndC]
  if s.fsm_state = FsmState.EXEC ∨ s.fsm_state = FsmState.WIPING then
    always ++ [CommitAction.gprsC, CommitAction.dmemC, CommitAction.loopStackC,
               CommitAction.wsrsC, CommitAction.flagsC, CommitAction.wdrsC] ++
      (if sim_stalled then [] else [CommitAction.pcAdvance])
  else always

/-- `OTBNState._abort`: discard any pending state changes on every
resource. -/
def OTBNState.abort (s : OTBNState) : OTBNState :=
  { s with
    gprs := s.gprs.abort
    pc_next_override := none
    dmem := s.dmem.abort
    loop_stack := s.loop_stack.abort
    ext_regs := s.ext_regs.abort
    wsrs := s.wsrs.abort
    csrs := { s.csrs with flags := s.csrs.flags.abort }
    wdrs := s.wdrs.abort }

/-- `OTBNState.start`: perform state initialisation for a run — busy status,
clear pending-halt and error bits, force both FSM state fields to `PRE_EXEC`,
reset PC, CSRs, loop stack and call stack (WSRs get their special persisting
treatment), poison the RND requester and request a fresh URND seed. -/
def OTBNState.start (s : OTBNState) : OTBNState :=
  { s with
    ext_regs := (s.ext_regs.write_status Status.BUSY_EXECUTE).rnd_poison
    pending_halt := false
    err_bits := 0
    fsm_state := FsmState.PRE_EXEC
    next_fsm_state := FsmState.PRE_EXEC
    has_state_to_wipe := true
    pc := 0
    csrs := CSRFile.init
    wsrs := s.wsrs.on_start
    loop_stack := LoopStack.init
    gprs := s.gprs.empty_call_stack
    urnd_client := s.urnd_client.request }

/-- The `should_lock` decision computed by `OTBNState.stop`: a fatal-class
bit (position 16 or above), the specific fatal bit 10, any error while
software errors are fatal, or an asserted RMA request. -/
def OTBNState.should_lock (s : OTBNState) : Bool :=
  decide (s.err_bits >>> 16 ≠ 0) ||
  decide ((s.err_bits >>> 10) &&& 1 ≠ 0) ||
  (decide (s.err_bits ≠ 0) && s.software_errs_fatal) ||
  decide (s.rma_req = LcTx.ON)

/-- `OTBNState.stop`: set flags to stop the processor and maybe abort the
instruction.  If the current instruction caused an error while executing,
roll back all staged changes; always stage the done interrupt bit and the
ERR_BITS value; then branch on urgency (lock immediately / start a secure
wipe from `EXEC` / escalation during a wipe / startup-wipe handling); finally
forget any pending RND request.  The source's `assert should_lock` statements
are modelled by returning `none`. -/
def OTBNState.stop (s : OTBNState) : Option OTBNState :=
  let insn_failed := s.err_bits ≠ 0 ∧ s.fsm_state = FsmState.EXEC
  let s1 := if insn_failed then s.abort else s
  let s2 := { s1 with ext_regs := s1.ext_regs.set_bits_intr_state (1 <<< 0) }
  let lock := s2.should_lock
  let s3 := { s2 with ext_regs := s2.ext_regs.write_err_bits s2.err_bits }
  let s4 := { s3 with pending_halt := false }
  let branched :=
    if s4.lock_immediately then
      if lock then
        some { s4.set_fsm_state FsmState.LOCKED with
               ext_regs := (s4.set_fsm_state FsmState.LOCKED).ext_regs.write_status
                 Status.LOCKED }
      else none
    else if s4.fsm_state = FsmState.EXEC then
      let s5 := { s4 with ext_regs := s4.ext_regs.write_stop_pc s4.pc }
      let s6 := { s5 with
                  ext_regs := (s5.ext_regs.write_wipe_start 1).commit_wipe_start }
      some { s6.set_fsm_state FsmState.PRE_WIPE with
             lock_after_wipe := lock
             wipe_rounds_done := 0 }
    else if s4.fsm_state = FsmState.PRE_WIPE ∨ s4.fsm_state = FsmState.WIPING then
      if lock then some { s4 with lock_after_wipe := true } else none
    else if s4.init_sec_wipe_state = InitSecWipeState.IN_PROGRESS then
      if lock then some { s4 with pending_halt := true } else none
    else if s4.init_sec_wipe_state = InitSecWipeState.DONE then
      if lock then
        some { s4 with
               next_fsm_state := FsmState.LOCKED
               ext_regs := s4.ext_regs.write_status Status.LOCKED }
      else none
    else some s4
  branched.map fun t => { t with ext_regs := t.ext_regs.rnd_forget }

/-- `OTBNState.pre_insn` / `loop_step`: step the loop stack for this
instruction, applying the back-branch PC override when one is produced (the
override goes through `set_next_pc`, which asserts validity). -/
def OTBNState.loop_step (s : OTBNState) (loop_warps : List (Nat × Nat)) :
    Option OTBNState :=
  match s.loop_stack.step s.pc loop_warps with
  | (none, ls) => some { s with loop_stack := ls }
  | (some back_pc, ls) => OTBNState.set_next_pc { s with loop_stack := ls } back_pc

/-- The first part of `OTBNState.post_insn`, up to and including the error
aggregation: increment the instruction counter, step the loop stack, run the
register file's per-instruction finalisation, fold the register-file and
loop-stack error bits into the accumulator and raise `pending_halt` if the
accumulator is non-zero. -/
def OTBNState.post_insn_pre_check (s : OTBNState) (loop_warps : List (Nat × Nat)) :
    Option OTBNState :=
  let s1 := { s with ext_regs := s.ext_regs.increment_insn_cnt }
  (s1.loop_step loop_warps).map fun s2 =>
    let s3 := { s2 with gprs := s2.gprs.post_insn }
    let errs := s3.gprs.err_bits ||| s3.loop_stack.err_bits
    let s4 := { s3 with err_bits := s3.err_bits ||| errs }
    if s4.err_bits ≠ 0 then { s4 with pending_halt := true } else s4

/-- `OTBNState.post_insn`: update state after running an instruction but
before commit; after the pre-check phase, flag `BAD_INSN_ADDR` and request a
halt if the computed next PC is invalid and no halt is already pending. -/
def OTBNState.post_insn (s : OTBNState) (loop_warps : List (Nat × Nat)) :
    Option OTBNState :=
  (s.post_insn_pre_check loop_warps).map fun m =>
    if m.is_pc_valid m.get_next_pc = false ∧ m.pending_halt = false then
      { m with err_bits := m.err_bits ||| ErrBits.BAD_INSN_ADDR,
               pending_halt := true }
    else m

/-- `OTBNState.invalidate_imem`: arm the two-cycle IMEM-invalidation
countdown. -/
def OTBNState.invalidate_imem (s : OTBNState) : OTBNState :=
  { s with time_to_imem_invalidation := some 2 }

/-- `OTBNState.clear_imem_invalidation`: clear any effective or pending IMEM
invalidation. -/
def OTBNState.clear_imem_invalidation (s : OTBNState) : OTBNState :=
  { s with time_to_imem_invalidation := none, invalidated_imem := false }

/-- A per-cycle driver call: `step(b)` or `commit(b)`. -/
inductive DriverOp where
  | stepOp : Bool → DriverOp
  | commitOp : Bool → DriverOp
deriving DecidableEq

/-- Run a sequence of driver calls. -/
def OTBNState.run (s : OTBNState) : List DriverOp → OTBNState
  | [] => s
  | DriverOp.stepOp b :: ops => (s.step b).run ops
  | DriverOp.commitOp b :: ops => (s.commit b).run ops

/-- The state as constructed by `OTBNState.__init__` (concrete collaborator
contents are the modelled resets). -/
def OTBNState.init : OTBNState :=
  { gprs := { regs := { committed := 0, staged := none },
              call_stack := [], acc_err_bits := 0 }
    wdrs := { committed := 0, staged := none }
    ext_regs :=
      { status := { committed := Status.IDLE, staged := none }
        intr_state := { committed := 0, staged := none }
        err_bits := { committed := 0, staged := none }
        stop_pc := { committed := 0, staged := none }
        wipe_start := { committed := 0, staged := none }
        insn_cnt := { committed := 0, staged := none }
        rnd_req_pending := false
        rnd_poisoned := false }
    wsrs := { URND := { seed := [0, 0, 0, 0], staged_seed := none }
              other := { committed := 0, staged := none }
              persistent := 0 }
    csrs := CSRFile.init
    pc := 0
    pc_next_override := none
    imem_size := IMEM_SIZE_BYTES
    dmem := { committed := 0, staged := none }
    fsm_state := FsmState.PRE_WIPE
    next_fsm_state := FsmState.PRE_WIPE
    init_sec_wipe_state := InitSecWipeState.NOT_DONE
    wipe_rounds_to_do := 2
    wipe_rounds_done := 0
    loop_stack := LoopStack.init
    err_bits := 0
    pending_halt := false
    urnd_client := { requested := false, cdc_word := none, cdc_retry := false,
                     fips_err := false, rep_err := false }
    time_to_imem_invalidation := none
    invalidated_imem := false
    wipe_cycles := -1
    lock_after_wipe := false
    injected_err_bits := 0
    lock_immediately := false
    time_to_insn_cnt_zero := none
    software_errs_fatal := false
    cycles_in_this_state := 0
    rma_req := LcTx.OFF
    has_state_to_wipe := false
    delayed_lock := false
    edn_seen_running := false }

/-- A state executing an instruction that has accumulated an error bit. -/
def stExecErr : OTBNState :=
  { OTBNState.init with fsm_state := FsmState.EXEC, err_bits := 1 }

/-- A state executing with no accumulated errors. -/
def stExecOk : OTBNState :=
  { OTBNState.init with fsm_state := FsmState.EXEC }

/-- A state executing with no errors but an asserted RMA request. -/
def stExecRma : OTBNState :=
  { OTBNState.init with fsm_state := FsmState.EXEC, rma_req := LcTx.ON }

/-- A state whose FSM has committed `LOCKED`. -/
def stLocked : OTBNState :=
  { OTBNState.init with fsm_state := FsmState.LOCKED,
                        next_fsm_state := FsmState.LOCKED }

/-- A state whose URND client has a completed CDC word waiting. -/
def stUrnd : OTBNState :=
  { OTBNState.init with
    urnd_client := { requested := true, cdc_word := some 7, cdc_retry := false,
                     fips_err := false, rep_err := false } }

/-- A state executing the straight-line instruction at the top of
instruction memory. -/
def stTopOfMem : OTBNState :=
  { OTBNState.init with fsm_state := FsmState.EXEC, pc := 4092 }

/-- The state produced by stopping `stExecErr`. -/
def tC1 : OTBNState :=
  (OTBNState.stop stExecErr).getD OTBNState.init

/-- The state produced by stopping `stExecOk`. -/
def tC10 : OTBNState :=
  (OTBNState.stop stExecOk).getD OTBNState.init

/-- The mid-state reached by `post_insn` on `stTopOfMem` just before the
next-PC validity check. -/
def mTop : OTBNState :=
  (OTBNState.post_insn_pre_check stTopOfMem []).getD OTBNState.init

/-- Equation lemma: the IMEM-invalidation tick as a single record update. -/
theorem imem_tick_eq (s : OTBNState) :
    s.imem_invalidation_tick =
      { s with
        invalidated_imem :=
          (match s.time_to_imem_invalidation with
           | none => s.invalidated_imem
           | some t => if t - 1 = 0 then true else s.invalidated_imem)
        time_to_imem_invalidation :=
          (match s.time_to_imem_invalidation with
           | none => none
           | some t => if t - 1 = 0 then none else some (t - 1)) } := by
  unfold OTBNState.imem_invalidation_tick
  rcases h : s.time_to_imem_invalidation with _ | t
  · simp only [h]
    rw [← h]
  · simp only [h]
    split <;> simp_all

/-- Equation lemma: the FSM latch as a single record update. -/
theorem latch_fsm_eq (s : OTBNState) :
    s.latch_fsm =
      { s with
        fsm_state := s.next_fsm_state
        cycles_in_this_state :=
          if s.next_fsm_state = s.fsm_state then s.cycles_in_this_state + 1
          else 0 } := by
  unfold OTBNState.latch_fsm
  split <;> simp_all

/-- Equation lemma: the architectural commit phase as a single record
update. -/
theorem commit_arch_eq (s : OTBNState) (b : Bool) :
    s.commit_arch b =
      { s with
        gprs := s.gprs.commit
        dmem := s.dmem.commit
        loop_stack := s.loop_stack.commit
        wsrs := s.wsrs.commit
        csrs := { s.csrs with flags := s.csrs.flags.commit }
        wdrs := s.wdrs.commit
        pc := if b then s.pc else s.get_next_pc
        pc_next_override := if b then s.pc_next_override else none } := by
  unfold OTBNState.commit_arch
  cases b <;> simp [OTBNState.get_next_pc]

/-- C7: `start()` writes BUSY_EXECUTE to STATUS, clears `pending_halt` and
the error-bit accumulator, sets both the current and the next FSM state to
`PRE_EXEC`, resets the PC to 0, resets the CSR file, loop stack and call
stack with the persisting treatment for the wide-special registers, poisons
the in-flight RND request and issues a fresh URND request. -/
theorem start_protocol (s : OTBNState) :
    (s.start).ext_regs.status.staged = some Status.BUSY_EXECUTE ∧
    (s.start).pending_halt = false ∧
    (s.start).err_bits = 0 ∧
    (s.start).fsm_state = FsmState.PRE_EXEC ∧
    (s.start).next_fsm_state = FsmState.PRE_EXEC ∧
    (s.start).pc = 0 ∧
    (s.start).csrs = CSRFile.init ∧
    (s.start).loop_stack = LoopStack.init ∧
    (s.start).gprs = s.gprs.empty_call_stack ∧
    (s.start).gprs.call_stack = [] ∧
    (s.start).wsrs = s.wsrs.on_start ∧
    (s.start).ext_regs.rnd_poisoned = true ∧
    (s.start).urnd_client.requested = true := by
  simp [OTBNState.start, OTBNExtRegs.write_status, OTBNExtRegs.rnd_poison,
        GPRs.empty_call_stack, EdnClient.request, StagedCell.record]

/-- C8: from a state with no pending IMEM invalidation, `invalidate_imem()`
followed by two `commit()` calls sets `invalidated_imem` exactly after the
second commit (the first leaves it unchanged and the armed counter at 1, the
second sets the flag and clears the countdown); and every `commit()`
decrements an armed counter by one, clearing it on reaching zero. -/
theorem imem_invalidation_timing (s : OTBNState) (b1 b2 : Bool)
    (h : s.time_to_imem_invalidation = none) :
    ((s.invalidate_imem).commit b1).invalidated_imem = s.invalidated_imem ∧
    ((s.invalidate_imem).commit b1).time_to_imem_invalidation = some 1 ∧
    (((s.invalidate_imem).commit b1).commit b2).invalidated_imem = true ∧
    (((s.invalidate_imem).commit b1).commit b2).time_to_imem_invalidation
      = none ∧
    (∀ (u : OTBNState) (t : Int) (b : Bool),
       u.time_to_imem_invalidation = some t →
       (u.commit b).time_to_imem_invalidation =
         (if t - 1 = 0 then none else some (t - 1))) := by
  have htime : ∀ (u : OTBNState) (b : Bool),
      (u.commit b).time_to_imem_invalidation =
        (match u.time_to_imem_invalidation with
         | none => none
         | some t => if t - 1 = 0 then none else some (t - 1)) := by
    intro u b
    unfold OTBNState.commit
    simp only [imem_tick_eq, latch_fsm_eq, commit_arch_eq]
    rw [apply_ite OTBNState.time_to_imem_invalidation]
    simp
  have hinv : ∀ (u : OTBNState) (b : Bool),
      (u.commit b).invalidated_imem =
        (match u.time_to_imem_invalidation with
         | none => u.invalidated_imem
         | some t => if t - 1 = 0 then true else u.invalidated_imem) := by
    intro u b
    unfold OTBNState.commit
    simp only [imem_tick_eq, latch_fsm_eq, commit_arch_eq]
    rw [apply_ite OTBNState.invalidated_imem]
    simp
  have hdec : ∀ (u : OTBNState) (t : Int) (b : Bool),
      u.time_to_imem_invalidation = some t →
      (u.commit b).time_to_imem_invalidation =
        (if t - 1 = 0 then none else some (t - 1)) := by
    intro u t b hu
    rw [htime u b, hu]
  have harm : ((s.invalidate_imem).commit b1).time_to_imem_invalidation
      = some 1 := by
    rw [hdec (s.invalidate_imem) 2 b1 (by simp [OTBNState.invalidate_imem])]
    norm_num
  refine ⟨?_, harm, ?_, ?_, hdec⟩
  · rw [hinv (s.invalidate_imem) b1]
    simp [OTBNState.invalidate_imem]
  · rw [hinv ((s.invalidate_imem).commit b1) b2, harm]
    norm_num
  · rw [hdec ((s.invalidate_imem).commit b1) 1 b2 harm]
    norm_num

/-- `step` never changes the FSM state fields. -/
theorem step_fsm (s : OTBNState) (b : Bool) :
    (s.step b).fsm_state = s.fsm_state ∧
    (s.step b).next_fsm_state = s.next_fsm_state := by
  unfold OTBNState.step OTBNState.take_injected_err_bits
    OTBNState.stop_at_end_of_cycle
  cases b <;> simp [EdnClient.step, OTBNExtRegs.step] <;> split <;> simp

/-- `commit` latches the next FSM state and leaves the next-state field
unchanged. -/
theorem commit_fsm (s : OTBNState) (b : Bool) :
    (s.commit b).fsm_state = s.next_fsm_state ∧
    (s.commit b).next_fsm_state = s.next_fsm_state := by
  unfold OTBNState.commit
  simp only [imem_tick_eq, latch_fsm_eq, commit_arch_eq]
  constructor
  · rw [apply_ite OTBNState.fsm_state]
    simp
  · rw [apply_ite OTBNState.next_fsm_state]
    simp

/-- C4: `LOCKED` is terminal — once both the committed FSM state and the
next-state field are `LOCKED`, no sequence of `step`/`commit` driver calls
changes the committed FSM state away from `LOCKED`. -/
theorem locked_is_terminal (s : OTBNState) (ops : List DriverOp)
    (h1 : s.fsm_state = FsmState.LOCKED)
    (h2 : s.next_fsm_state = FsmState.LOCKED) :
    (s.run ops).fsm_state = FsmState.LOCKED := by
  induction ops generalizing s with
  | nil => simpa [OTBNState.run] using h1
  | cons op rest ih =>
      cases op with
      | stepOp b =>
          show ((s.step b).run rest).fsm_state = FsmState.LOCKED
          exact ih _ ((step_fsm s b).1.trans h1) ((step_fsm s b).2.trans h2)
      | commitOp b =>
          show ((s.commit b).run rest).fsm_state = FsmState.LOCKED
          exact ih _ ((commit_fsm s b).1.trans h2) ((commit_fsm s b).2.trans h2)

/-- Witness for C4 at a concrete locked state and driver sequence. -/
theorem locked_is_terminal_witness :
    (OTBNState.run stLocked
        [DriverOp.stepOp true, DriverOp.commitOp false,
         DriverOp.commitOp true]).fsm_state = FsmState.LOCKED :=
  locked_is_terminal stLocked _ (by decide) (by decide)

/-- C9: `urnd_completed()` fails its caller-contract assertion exactly when
the URND client's completion reports a missing value or a retry-needed
condition; when the contract holds, the 256-bit word is split into four
64-bit quarter-words (least-significant first) staged as the URND seed, and
the entropy-source-observed-running flag is set. -/
theorem urnd_completed_contract (s : OTBNState) :
    (s.urnd_completed = none ↔
       (s.urnd_client.cdc_word = none ∨ s.urnd_client.cdc_retry = true)) ∧
    (∀ w, s.urnd_client.cdc_word = some w → s.urnd_client.cdc_retry = false →
       s.urnd_completed =
         some { s with
                urnd_client := { s.urnd_client with
                                 requested := false
                                 cdc_word := none
                                 cdc_retry := false }
                edn_seen_running := true
                wsrs := { s.wsrs with
                          URND := s.wsrs.URND.set_seed [w &&& (2 ^ 64 - 1),
                            (w >>> 64) &&& (2 ^ 64 - 1),
                            (w >>> 128) &&& (2 ^ 64 - 1),
                            (w >>> 192) &&& (2 ^ 64 - 1)] } }) := by
  constructor
  · unfold OTBNState.urnd_completed EdnClient.cdc_complete
    rcases hw : s.urnd_client.cdc_word with _ | w <;>
      rcases hr : s.urnd_client.cdc_retry <;> simp [hw, hr]
  · intro w hw hr
    unfold OTBNState.urnd_completed EdnClient.cdc_complete
    simp [hw, hr]

/-- Witness for C9 at a concrete completed CDC word. -/
theorem urnd_completed_contract_witness :
    OTBNState.urnd_completed stUrnd =
      some { stUrnd with
             urnd_client := { stUrnd.urnd_client with
                              requested := false
                              cdc_word := none
                              cdc_retry := false }
             edn_seen_running := true
             wsrs := { stUrnd.wsrs with
                       URND := stUrnd.wsrs.URND.set_seed [7 &&& (2 ^ 64 - 1),
                         (7 >>> 64) &&& (2 ^ 64 - 1),
                         (7 >>> 128) &&& (2 ^ 64 - 1),
                         (7 >>> 192) &&& (2 ^ 64 - 1)] } } :=
  (urnd_completed_contract stUrnd).2 7 (by decide) (by decide)

/-- C3: the `should_lock` decision in `stop()` is exactly the disjunction of
a set bit at position 16 or above, bit 10 set, non-zero error bits while the
software-errors-are-fatal policy is on, and an RMA request equal to ON; it is
a pure function of that accumulated state, and the stop of an executing,
not-immediately-locking state records it as `lock_after_wipe`. -/
theorem should_lock_spec (s : OTBNState) :
    (s.should_lock = true ↔
       ((∃ i, 16 ≤ i ∧ s.err_bits.testBit i = true) ∨
        s.err_bits.testBit 10 = true ∨
        (s.err_bits ≠ 0 ∧ s.software_errs_fatal = true) ∨
        s.rma_req = LcTx.ON)) ∧
    (s.lock_immediately = false → s.fsm_state = FsmState.EXEC →
       Option.map OTBNState.lock_after_wipe s.stop = some s.should_lock) := by
  constructor
  · have h16 : s.err_bits >>> 16 ≠ 0 ↔
        ∃ i, 16 ≤ i ∧ s.err_bits.testBit i = true := by
      constructor
      · intro hnz
        obtain ⟨j, hj⟩ := Nat.ne_zero_implies_bit_true hnz
        rw [Nat.testBit_shiftRight] at hj
        exact ⟨16 + j, by omega, hj⟩
      · rintro ⟨i, hi, hbit⟩ h0
        have hb : (s.err_bits >>> 16).testBit (i - 16) =
            s.err_bits.testBit (16 + (i - 16)) := Nat.testBit_shiftRight _
        rw [h0] at hb
        have : 16 + (i - 16) = i := by omega
        rw [this, hbit] at hb
        simp at hb
    have h10 : (s.err_bits >>> 10) &&& 1 ≠ 0 ↔
        s.err_bits.testBit 10 = true := by
      rw [Nat.and_one_is_mod, Nat.shiftRight_eq_div_pow, Nat.testBit_to_div_mod]
      simp only [decide_eq_true_eq]
      omega
    unfold OTBNState.should_lock
    simp only [Bool.or_eq_true, decide_eq_true_eq, Bool.and_eq_true]
    rw [h16, h10]
    simp [or_assoc]
  · intro hli hfsm
    by_cases herr : s.err_bits = 0 <;>
      simp [OTBNState.stop, herr, hli, hfsm, OTBNState.abort,
            OTBNState.set_fsm_state, OTBNState.should_lock,
            OTBNExtRegs.set_bits_intr_state, OTBNExtRegs.write_err_bits,
            OTBNExtRegs.write_stop_pc, OTBNExtRegs.write_wipe_start,
            OTBNExtRegs.commit_wipe_start, OTBNExtRegs.rnd_forget,
            StagedCell.record, StagedCell.read, StagedCell.commit,
            StagedCell.abort]

/-- Witness for C3: stopping `stExecErr` records its (false) lock
decision. -/
theorem should_lock_spec_witness :
    Option.map OTBNState.lock_after_wipe (OTBNState.stop stExecErr) =
      some stExecErr.should_lock :=
  (should_lock_spec stExecErr).2 (by decide) (by decide)

/-- Witness for C8 at the initial state. -/
theorem imem_invalidation_timing_witness :
    (((OTBNState.init.invalidate_imem).commit false).commit true).invalidated_imem
      = true ∧
    ((OTBNState.init.invalidate_imem).commit false).invalidated_imem = false := by
  have h := imem_invalidation_timing OTBNState.init false true (by decide)
  exact ⟨h.2.2.1, h.1.trans (by decide)⟩

/-- C2: every `commit(stalled)` commits the external registers and the URND
seed register unconditionally; it commits general registers, memory, loop
stack, wide-special registers, flags and wide registers — in that source
order — exactly when the previous FSM state was `EXEC` or `WIPING`, and only
in that case, and only when not stalled, advances the committed PC to the
next-PC value. -/
theorem commit_contract (s : OTBNState) (st : Bool) :
    ((s.commit st).ext_regs = s.ext_regs.commit) ∧
    ((s.commit st).wsrs.URND = s.wsrs.URND.commit) ∧
    (s.fsm_state = FsmState.EXEC ∨ s.fsm_state = FsmState.WIPING →
       (s.commit st).gprs = s.gprs.commit ∧
       (s.commit st).dmem = s.dmem.commit ∧
       (s.commit st).loop_stack = s.loop_stack.commit ∧
       (s.commit st).wsrs.other = s.wsrs.other.commit ∧
       (s.commit st).csrs.flags = s.csrs.flags.commit ∧
       (s.commit st).wdrs = s.wdrs.commit ∧
       (st = false → (s.commit st).pc = s.get_next_pc ∧
          (s.commit st).pc_next_override = none) ∧
       (st = true → (s.commit st).pc = s.pc ∧
          (s.commit st).pc_next_override = s.pc_next_override)) ∧
    (¬(s.fsm_state = FsmState.EXEC ∨ s.fsm_state = FsmState.WIPING) →
       (s.commit st).gprs = s.gprs ∧
       (s.commit st).dmem = s.dmem ∧
       (s.commit st).loop_stack = s.loop_stack ∧
       (s.commit st).wsrs.other = s.wsrs.other ∧
       (s.commit st).csrs = s.csrs ∧
       (s.commit st).wdrs = s.wdrs ∧
       (s.commit st).pc = s.pc ∧
       (s.commit st).pc_next_override = s.pc_next_override) ∧
    (s.commitActions st =
       [CommitAction.extRegsC, CommitAction.urndC] ++
       (if s.fsm_state = FsmState.EXEC ∨ s.fsm_state = FsmState.WIPING then
          [CommitAction.gprsC, CommitAction.dmemC, CommitAction.loopStackC,
           CommitAction.wsrsC, CommitAction.flagsC, CommitAction.wdrsC] ++
          (if st = false then [CommitAction.pcAdvance] else [])
        else [])) := by
  refine ⟨?_, ?_, ?_, ?_, ?_⟩
  · unfold OTBNState.commit
    simp only [imem_tick_eq, latch_fsm_eq, commit_arch_eq]
    rw [apply_ite OTBNState.ext_regs]
    simp
  · unfold OTBNState.commit
    simp only [imem_tick_eq, latch_fsm_eq, commit_arch_eq]
    rw [apply_ite (fun u : OTBNState => u.wsrs.URND)]
    simp [WSRFile.commit, URndReg.commit]
  · intro hex
    unfold OTBNState.commit
    simp only [imem_tick_eq, latch_fsm_eq, commit_arch_eq]
    cases st <;>
      simp [hex, WSRFile.commit, OTBNState.get_next_pc]
  · intro hex
    unfold OTBNState.commit
    simp only [imem_tick_eq, latch_fsm_eq, commit_arch_eq]
    simp [hex]
  · unfold OTBNState.commitActions
    cases st <;> by_cases hex : s.fsm_state = FsmState.EXEC ∨
        s.fsm_state = FsmState.WIPING <;> simp [hex]

/-- Witness for C2 at a concrete executing state. -/
theorem commit_contract_witness :
    (stExecOk.commit false).pc = stExecOk.get_next_pc ∧
    (stExecOk.commit false).ext_regs = stExecOk.ext_regs.commit := by
  have h := commit_contract stExecOk false
  have hex : stExecOk.fsm_state = FsmState.EXEC ∨
      stExecOk.fsm_state = FsmState.WIPING := Or.inl (by decide)
  exact ⟨((h.2.2.1 hex).2.2.2.2.2.2.1 rfl).1, h.1⟩

/-- C10: when `stop()` succeeds with zero accumulated error bits (any FSM
state), or with nonzero error bits but an FSM state other than `EXEC`, no
abort is performed: the staged state of every resource — in particular the
staged INSN_CNT increment — is left in place. -/
theorem stop_no_abort (s t : OTBNState)
    (h : s.err_bits = 0 ∨ s.fsm_state ≠ FsmState.EXEC)
    (hstop : s.stop = some t) :
    t.gprs = s.gprs ∧ t.dmem = s.dmem ∧ t.loop_stack = s.loop_stack ∧
    t.wsrs = s.wsrs ∧ t.csrs = s.csrs ∧ t.wdrs = s.wdrs ∧
    t.pc_next_override = s.pc_next_override ∧
    t.ext_regs.insn_cnt = s.ext_regs.insn_cnt := by
  have hf : ¬(s.err_bits ≠ 0 ∧ s.fsm_state = FsmState.EXEC) := by tauto
  unfold OTBNState.stop at hstop
  simp only [hf, if_false] at hstop
  rw [Option.map_eq_some'] at hstop
  obtain ⟨u, hu, hut⟩ := hstop
  subst hut
  repeat' split at hu
  all_goals
    first
      | exact Option.noConfusion hu
      | (rw [Option.some_inj] at hu
         subst hu
         simp [OTBNExtRegs.rnd_forget, OTBNState.set_fsm_state,
               OTBNExtRegs.write_stop_pc, OTBNExtRegs.write_wipe_start,
               OTBNExtRegs.commit_wipe_start, OTBNExtRegs.write_status,
               OTBNExtRegs.set_bits_intr_state, OTBNExtRegs.write_err_bits])

/-- Witness for C10: stopping a cleanly executing state keeps the staged
instruction-count increment and register state. -/
theorem stop_no_abort_witness :
    tC10.ext_regs.insn_cnt = stExecOk.ext_regs.insn_cnt ∧
    tC10.gprs = stExecOk.gprs := by
  have h := stop_no_abort stExecOk tC10 (Or.inl (by decide)) (by decide)
  exact ⟨h.2.2.2.2.2.2.2, h.1⟩

/-- Counterexample to C1 as stated: stopping an executing state with a
nonzero error accumulator changes the externally observable (committed)
value of the WIPE_START external register from 0 to 1, so not every
resource's observable value equals its pre-instruction committed value —
WIPE_START is a further exception beyond the done bit and ERR_BITS. -/
theorem stop_exec_error_commits_wipe_start :
    OTBNState.stop stExecErr = some tC1 ∧
    tC1.ext_regs.wipe_start.committed = 1 ∧
    stExecErr.ext_regs.wipe_start.committed = 0 := by decide

/-- C1 (amended): when `stop()` runs with nonzero error bits in FSM state
`EXEC`, all staged changes on every resource are discarded via the abort
contract, leaving every committed register value unchanged — except the
WIPE_START register, which (unless locking immediately) is written to 1 and
committed within the same call; the done interrupt bit and ERR_BITS are
always staged-written by `stop()`. -/
theorem stop_exec_error_rollback (s t : OTBNState)
    (herr : s.err_bits ≠ 0) (hfsm : s.fsm_state = FsmState.EXEC)
    (hstop : s.stop = some t) :
    t.gprs = s.gprs.abort ∧
    t.pc_next_override = none ∧
    t.dmem = s.dmem.abort ∧
    t.loop_stack = s.loop_stack.abort ∧
    t.wsrs = s.wsrs.abort ∧
    t.csrs.flags = s.csrs.flags.abort ∧
    t.wdrs = s.wdrs.abort ∧
    t.ext_regs.status.committed = s.ext_regs.status.committed ∧
    t.ext_regs.intr_state.committed = s.ext_regs.intr_state.committed ∧
    t.ext_regs.err_bits.committed = s.ext_regs.err_bits.committed ∧
    t.ext_regs.stop_pc.committed = s.ext_regs.stop_pc.committed ∧
    t.ext_regs.insn_cnt.committed = s.ext_regs.insn_cnt.committed ∧
    t.ext_regs.insn_cnt.staged = none ∧
    t.ext_regs.intr_state.staged = some (s.ext_regs.intr_state.committed ||| 1) ∧
    t.ext_regs.err_bits.staged = some s.err_bits ∧
    (s.lock_immediately = false →
       t.ext_regs.stop_pc.staged = some s.pc ∧
       t.ext_regs.wipe_start.committed = 1 ∧
       t.ext_regs.wipe_start.staged = none) ∧
    (s.lock_immediately = true →
       t.ext_regs.wipe_start.committed = s.ext_regs.wipe_start.committed ∧
       t.ext_regs.wipe_start.staged = none ∧
       t.ext_regs.stop_pc.staged = none) := by
  have hf : s.err_bits ≠ 0 ∧ s.fsm_state = FsmState.EXEC := ⟨herr, hfsm⟩
  unfold OTBNState.stop at hstop
  simp only [hf, if_true] at hstop
  rw [Option.map_eq_some'] at hstop
  obtain ⟨u, hu, hut⟩ := hstop
  subst hut
  repeat' split at hu
  all_goals
    first
      | exact Option.noConfusion hu
      | (rw [Option.some_inj] at hu
         subst hu
         simp_all [OTBNState.abort, OTBNExtRegs.abort, OTBNExtRegs.rnd_forget,
               OTBNState.set_fsm_state, OTBNExtRegs.write_stop_pc,
               OTBNExtRegs.write_wipe_start, OTBNExtRegs.commit_wipe_start,
               OTBNExtRegs.write_status, OTBNExtRegs.set_bits_intr_state,
               OTBNExtRegs.write_err_bits, StagedCell.record, StagedCell.read,
               StagedCell.commit, StagedCell.abort])

/-- Witness for the amended C1 at a concrete faulting state. -/
theorem stop_exec_error_rollback_witness :
    tC1.gprs = stExecErr.gprs.abort ∧
    tC1.ext_regs.err_bits.staged = some stExecErr.err_bits ∧
    tC1.ext_regs.wipe_start.committed = 1 := by
  have h := stop_exec_error_rollback stExecErr tC1 (by decide) (by decide)
    (by decide)
  obtain ⟨h1, _, _, _, _, _, _, _, _, _, _, _, _, _, h15, h16, _⟩ := h
  exact ⟨h1, h15, (h16 (by decide)).2.1⟩

/-- Counterexample to C6 as stated: a `stop()` call with zero accumulated
error bits, `lock_immediately` false and FSM state `EXEC`, but with the RMA
request input ON, sets `lock_after_wipe` to true, not false. -/
theorem stop_exec_rma_locks_after_wipe :
    stExecRma.err_bits = 0 ∧
    stExecRma.lock_immediately = false ∧
    stExecRma.fsm_state = FsmState.EXEC ∧
    Option.map OTBNState.lock_after_wipe (OTBNState.stop stExecRma) =
      some true := by decide

/-- C6 (amended): a `stop()` call with zero accumulated error bits,
`lock_immediately` false, FSM state `EXEC` and no asserted RMA request sets
the next FSM state to `PRE_WIPE`, `lock_after_wipe` to false and
`wipe_rounds_done` to 0, stages the final PC into STOP_PC, and writes
WIPE_START to 1 and commits it within the same call. -/
theorem stop_exec_clean_starts_wipe (s : OTBNState)
    (herr : s.err_bits = 0) (hlock : s.lock_immediately = false)
    (hfsm : s.fsm_state = FsmState.EXEC) (hrma : s.rma_req ≠ LcTx.ON) :
    Option.map OTBNState.next_fsm_state s.stop = some FsmState.PRE_WIPE ∧
    Option.map OTBNState.lock_after_wipe s.stop = some false ∧
    Option.map OTBNState.wipe_rounds_done s.stop = some 0 ∧
    Option.map (fun t => t.ext_regs.stop_pc.staged) s.stop = some (some s.pc) ∧
    Option.map (fun t => t.ext_regs.wipe_start.committed) s.stop = some 1 ∧
    Option.map (fun t => t.ext_regs.wipe_start.staged) s.stop = some none := by
  simp [OTBNState.stop, herr, hlock, hfsm, hrma, OTBNState.should_lock,
        OTBNState.set_fsm_state, OTBNExtRegs.write_stop_pc,
        OTBNExtRegs.write_wipe_start, OTBNExtRegs.commit_wipe_start,
        OTBNExtRegs.set_bits_intr_state, OTBNExtRegs.write_err_bits,
        OTBNExtRegs.rnd_forget, StagedCell.record, StagedCell.read,
        StagedCell.commit]

/-- Witness for the amended C6 at a concrete clean executing state. -/
theorem stop_exec_clean_starts_wipe_witness :
    Option.map OTBNState.next_fsm_state (OTBNState.stop stExecOk) =
      some FsmState.PRE_WIPE ∧
    Option.map OTBNState.lock_after_wipe (OTBNState.stop stExecOk) =
      some false ∧
    Option.map (fun t => t.ext_regs.wipe_start.committed)
      (OTBNState.stop stExecOk) = some 1 := by
  have h := stop_exec_clean_starts_wipe stExecOk (by decide) (by decide)
    (by decide) (by decide)
  exact ⟨h.1, h.2.1, h.2.2.2.2.1⟩

/-- C5: `is_pc_valid(pc)` holds iff the PC is word-aligned and strictly
below the instruction-memory size; and whenever the next PC computed by
`post_insn` fails this check with no halt already pending, `post_insn` sets
the BAD_INSN_ADDR error bit and requests a halt. -/
theorem pc_validity_and_bad_insn_addr (s m : OTBNState)
    (loop_warps : List (Nat × Nat)) :
    (∀ pc, s.is_pc_valid pc = true ↔ (pc % 4 = 0 ∧ pc < s.imem_size)) ∧
    (s.post_insn_pre_check loop_warps = some m →
     m.is_pc_valid m.get_next_pc = false → m.pending_halt = false →
     s.post_insn loop_warps =
       some { m with err_bits := m.err_bits ||| ErrBits.BAD_INSN_ADDR,
                     pending_halt := true }) := by
  constructor
  · intro pc
    unfold OTBNState.is_pc_valid
    have h4 : pc &&& 3 = pc % 4 := by
      have h := Nat.and_pow_two_sub_one_eq_mod pc 2
      norm_num at h
      exact h
    rw [h4]
    by_cases h1 : pc % 4 = 0 <;> by_cases h2 : s.imem_size ≤ pc <;>
      simp [h1, h2] <;> omega
  · intro hpre hvalid hhalt
    unfold OTBNState.post_insn
    rw [hpre]
    simp [hvalid, hhalt]

/-- Witness for C5: a straight-line instruction at the top of instruction
memory flags BAD_INSN_ADDR and requests a halt. -/
theorem pc_validity_and_bad_insn_addr_witness :
    OTBNState.post_insn stTopOfMem [] =
      some { mTop with err_bits := mTop.err_bits ||| ErrBits.BAD_INSN_ADDR,
                       pending_halt := true } ∧
    OTBNState.is_pc_valid stTopOfMem 4092 = true := by
  constructor
  · exact (pc_validity_and_bad_insn_addr stTopOfMem mTop []).2 (by decide)
      (by decide) (by decide)
  · exact ((pc_validity_and_bad_insn_addr stTopOfMem mTop []).1 4092).mpr
      (by decide)
